import Mathlib

/-!
# Verification of the instrument-form frontend

Shallow embedding of the three source files of the repository:

* `useInstrumentForm` (the form-state hook): form data, the three parallel
  image arrays (`imageFiles`, `imagePreviews`, `imageData`) plus
  `existingImages`, the handlers `handleInputChange`, `removeImage`,
  `resetForm`, `handleClose`, `handleSubmit`, and the effects that run on
  open/close transitions.
* `ImageUploader.jsx`: `handleImageUpload`, batch validation and the
  sequential per-file upload loop.
* `cloudinaryService`: modelled abstractly as the upload oracle passed to
  the loop (a function from files to a transport result).

JavaScript values that flow through the form are modelled by `JVal`
(strings, numbers, booleans, `NaN`, `undefined`, arrays) with JS
truthiness; the `formData` object is an association list keyed by field
name, so computed keys (`[name]: value`) are modelled faithfully.
`URL.revokeObjectURL` calls are recorded in an append-only `revoked` log
on the state.
-/

/-- Model of a JavaScript value as it occurs in the form state. -/
inductive JVal where
  | vStr (s : String)
  | vNum (n : Int)
  | vBool (b : Bool)
  | vNaN
  | vUndef
  | vArr (xs : List String)
deriving DecidableEq, Repr

/-- JS truthiness of a `JVal` (arrays are always truthy). -/
def JVal.truthy : JVal → Bool
  | .vStr s => s ≠ ""
  | .vNum n => n ≠ 0
  | .vBool b => b
  | .vNaN => false
  | .vUndef => false
  | .vArr _ => true

/-- JS `a || b`. -/
def jsOr (a b : JVal) : JVal := if a.truthy then a else b

/-- JS `s.startsWith(p)`, at the character level. -/
def jsStartsWith (s p : String) : Bool := p.data.isPrefixOf s.data

/-- Parse a non-negative decimal numeral, accumulator style. -/
def parseDigits : List Char → Nat → Option Nat
  | [], acc => some acc
  | c :: rest, acc =>
      if 48 ≤ c.toNat ∧ c.toNat ≤ 57 then
        parseDigits rest (acc * 10 + (c.toNat - 48))
      else none

/-- Parse an optionally negated decimal-integer string. -/
def strToInt? (s : String) : Option Int :=
  match s.data with
  | [] => none
  | '-' :: rest =>
      match rest with
      | [] => none
      | _ => (parseDigits rest 0).map (fun n => -(n : Int))
  | l => (parseDigits l 0).map (fun n => (n : Int))

/-- JS `Number(s)` restricted to the integer strings the form produces:
`Number("")` is `0`, a decimal-integer string is its value, anything else
is `NaN`. -/
def jsNumber (s : String) : JVal :=
  if s = "" then .vNum 0
  else match strToInt? s with
    | some n => .vNum n
    | none => .vNaN

/-- The `formData` object: an association list from field name to value. -/
abbrev FormObj := List (String × JVal)

/-- Property read `obj[k]`: `undefined` when the key is absent. -/
def getField : FormObj → String → JVal
  | [], _ => .vUndef
  | p :: rest, k => if p.1 = k then p.2 else getField rest k

/-- JS spread-with-computed-key `{...prev, [k]: v}`: overwrite the key in
place when present, append it otherwise. -/
def setField (fd : FormObj) (k : String) (v : JVal) : FormObj :=
  if fd.any (fun p => p.1 = k) then
    fd.map (fun p => if p.1 = k then (k, v) else p)
  else
    fd ++ [(k, v)]

/-- The initial `formData` literal of `useState` (and of `resetForm`). -/
def initialFormData : FormObj :=
  [("name", .vStr ""), ("brand", .vStr ""), ("model", .vStr ""),
   ("year", .vStr ""), ("stock", .vStr ""), ("description", .vStr ""),
   ("price", .vStr ""), ("available", .vBool false),
   ("idCategory", .vStr ""), ("imageUrls", .vArr [])]

/-- A selected file: only its media type matters to the form logic. -/
structure FileV where
  fname : String
  ftype : String
deriving DecidableEq, Repr

/-- One entry of `imageData`: the hook stores either `{url}` (edit-mode
hydration) or the full descriptor built from an upload response. -/
structure ImageDescriptor where
  url : String
  publicId : Option String := none
  width : Option Nat := none
  height : Option Nat := none
  format : Option String := none
deriving DecidableEq, Repr

/-- Response of the backend upload endpoint
(`cloudinaryService.uploadImageViaBackend`). -/
structure UploadResponse where
  secureUrl : String
  publicId : String
  width : Nat
  height : Nat
  format : String
deriving DecidableEq, Repr

/-- The descriptor `ImageUploader` pushes into `imageData` after a
successful upload. -/
def respDescriptor (r : UploadResponse) : ImageDescriptor :=
  { url := r.secureUrl, publicId := some r.publicId,
    width := some r.width, height := some r.height,
    format := some r.format }

/-- State owned by `useInstrumentForm`, plus a ghost log of every URL
passed to `URL.revokeObjectURL`. -/
structure HookState where
  formData : FormObj
  imageFiles : List FileV
  imagePreviews : List String
  existingImages : List String
  imageData : List ImageDescriptor
  initialLoad : Bool
  isOpen : Bool
  revoked : List String
deriving DecidableEq

/-- The hook's state right after mount. -/
def initState : HookState :=
  { formData := initialFormData, imageFiles := [], imagePreviews := [],
    existingImages := [], imageData := [], initialLoad := true,
    isOpen := false, revoked := [] }

/-- Model of `handleInputChange`: in edit mode only the category selector is
honoured; otherwise the raw value is coerced (checkbox to its checked
boolean, `idCategory` through `Number`, `available` by comparison with
the string `"true"`, all else passed through) and written under the
field's name. -/
def handleInputChange (isEditMode : Bool) (name value ty : String)
    (checked : Bool) (fd : FormObj) : FormObj :=
  if isEditMode ∧ name ≠ "idCategory" then fd
  else
    setField fd name
      (if ty = "checkbox" then .vBool checked
       else if name = "idCategory" then jsNumber value
       else if name = "available" then .vBool (value = "true")
       else .vStr value)

/-- A single edit event: field name, raw value, input type, checked flag. -/
structure EditEvent where
  name : String
  value : String
  ty : String
  checked : Bool

/-- A sequence of `handleInputChange` calls. -/
def applyEdits (isEditMode : Bool) (edits : List EditEvent)
    (fd : FormObj) : FormObj :=
  edits.foldl
    (fun fd e => handleInputChange isEditMode e.name e.value e.ty e.checked fd)
    fd

theorem getField_cons (p : String × JVal) (fd : FormObj) (k : String) :
    getField (p :: fd) k = if p.1 = k then p.2 else getField fd k := rfl

theorem getField_map_replace_ne (fd : FormObj) (k k' : String) (v : JVal)
    (hne : k' ≠ k) :
    getField (fd.map (fun p => if p.1 = k then (k, v) else p)) k'
      = getField fd k' := by
  induction fd with
  | nil => rfl
  | cons p rest ih =>
    rw [List.map_cons]
    by_cases hp : p.1 = k
    · rw [if_pos hp, getField_cons, getField_cons,
        if_neg (show ¬ (k, v).1 = k' from fun h => hne h.symm),
        if_neg (show ¬ p.1 = k' from fun h => hne (hp.symm.trans h).symm)]
      exact ih
    · rw [if_neg hp, getField_cons, getField_cons]
      by_cases hpk : p.1 = k'
      · rw [if_pos hpk, if_pos hpk]
      · rw [if_neg hpk, if_neg hpk]
        exact ih

theorem getField_map_replace_self (fd : FormObj) (k : String) (v : JVal)
    (hany : (fd.any fun p => p.1 = k) = true) :
    getField (fd.map (fun p => if p.1 = k then (k, v) else p)) k = v := by
  induction fd with
  | nil => simp at hany
  | cons p rest ih =>
    simp only [List.any_cons, Bool.or_eq_true, decide_eq_true_eq] at hany
    rw [List.map_cons]
    by_cases hp : p.1 = k
    · rw [if_pos hp, getField_cons, if_pos rfl]
    · rw [if_neg hp, getField_cons, if_neg hp]
      exact ih (hany.resolve_left hp)

theorem getField_append_single (fd : FormObj) (k k' : String) (v : JVal)
    (hnone : (fd.any fun p => p.1 = k) = false) :
    getField (fd ++ [(k, v)]) k'
      = if k' = k then v else getField fd k' := by
  induction fd with
  | nil =>
    rw [List.nil_append, getField_cons]
    by_cases hk : k' = k
    · rw [if_pos hk.symm, if_pos hk]
    · rw [if_neg (show ¬ (k, v).1 = k' from fun h => hk h.symm), if_neg hk]
  | cons p rest ih =>
    simp only [List.any_cons, Bool.or_eq_false_iff,
      decide_eq_false_iff_not] at hnone
    obtain ⟨hp, hrest⟩ := hnone
    rw [List.cons_append, getField_cons, getField_cons, ih hrest]
    by_cases hk : k' = k
    · rw [if_pos hk, if_pos hk,
        if_neg (show ¬ p.1 = k' from fun h => hp (h.trans hk))]
    · rw [if_neg hk, if_neg hk]

/-- Reading back through `setField` behaves as a function update. -/
theorem getField_setField (fd : FormObj) (k k' : String) (v : JVal) :
    getField (setField fd k v) k'
      = if k' = k then v else getField fd k' := by
  unfold setField
  by_cases hany : (fd.any fun p => p.1 = k) = true
  · rw [if_pos hany]
    by_cases hk : k' = k
    · subst hk
      rw [if_pos rfl]
      exact getField_map_replace_self fd k' v hany
    · rw [if_neg hk]
      exact getField_map_replace_ne fd k k' v hk
  · rw [if_neg hany]
    refine getField_append_single fd k k' v ?_
    rwa [Bool.not_eq_true] at hany

/-- Model of `removeImage(index)`: no-op in edit mode; otherwise, in the
existing-images prefix the entry is removed from `existingImages` by
index and from `imagePreviews` by URL match, past it the file at
`index - existingImages.length` and the preview at `index` are removed
and a `blob:` preview at `index` is revoked; `imageData` always loses
the entry at `index`.  `prev.filter((_, i) => i !== index)` is
`List.eraseIdx index`. -/
def removeImage (isEditMode : Bool) (index : Nat) (s : HookState) :
    HookState :=
  if isEditMode then s
  else if index < s.existingImages.length then
    let imageUrl := s.existingImages.getD index ""
    { s with existingImages := s.existingImages.eraseIdx index,
             imagePreviews := s.imagePreviews.filter (fun url => url ≠ imageUrl),
             imageData := s.imageData.eraseIdx index }
  else
    let revokes :=
      match s.imagePreviews[index]? with
      | some u => if jsStartsWith u "blob:" then [u] else []
      | none => []
    { s with imageFiles := s.imageFiles.eraseIdx (index - s.existingImages.length),
             imagePreviews := s.imagePreviews.eraseIdx index,
             imageData := s.imageData.eraseIdx index,
             revoked := s.revoked ++ revokes }

/-- Model of `resetForm`: revoke every `blob:` preview, restore the initial
`formData`, clear the four image arrays. -/
def resetFormS (s : HookState) : HookState :=
  { s with formData := initialFormData,
           imageFiles := [], imagePreviews := [], existingImages := [],
           imageData := [],
           revoked := s.revoked
             ++ s.imagePreviews.filter (fun url => jsStartsWith url "blob:") }

/-- The cleanup effect (lines 96-108 of the hook) restricted to its
`!isOpen` branch: revoke every `blob:` preview without clearing any
state. -/
def cleanupEffect (s : HookState) : HookState :=
  if s.isOpen then s
  else
    { s with revoked := s.revoked
        ++ s.imagePreviews.filter (fun url => jsStartsWith url "blob:") }

/-- The record handed to the hook as `instrumentToEdit`; `imageUrls` is
`none` when the property is absent. -/
structure InstrumentRec where
  id : JVal := .vUndef
  idProduct : JVal := .vUndef
  name : JVal := .vUndef
  brand : JVal := .vUndef
  model : JVal := .vUndef
  year : JVal := .vUndef
  stock : JVal := .vUndef
  description : JVal := .vUndef
  price : JVal := .vUndef
  available : JVal := .vUndef
  idCategory : JVal := .vUndef
  imageUrls : Option (List String) := none
deriving DecidableEq

/-- The body of the edit-mode hydration effect (lines 60-86): seed
`formData` with `||`-defaults, and seed the image arrays only when the
record carries a non-empty `imageUrls`. -/
def hydrate (inst : InstrumentRec) (s : HookState) : HookState :=
  let fd : FormObj :=
    [("id", jsOr inst.id inst.idProduct),
     ("name", jsOr inst.name (.vStr "")),
     ("brand", jsOr inst.brand (.vStr "")),
     ("model", jsOr inst.model (.vStr "")),
     ("year", jsOr inst.year (.vStr "")),
     ("stock", jsOr inst.stock (.vStr "")),
     ("description", jsOr inst.description (.vStr "")),
     ("price", jsOr inst.price (.vStr "")),
     ("available", jsOr inst.available (.vBool false)),
     ("idCategory", jsOr inst.idCategory (.vStr "")),
     ("imageUrls", .vArr [])]
  let s1 := { s with formData := fd }
  let s2 :=
    match inst.imageUrls with
    | some urls =>
        if urls.length > 0 then
          { s1 with existingImages := urls,
                    imagePreviews := urls,
                    imageData := urls.map (fun url => { url := url }) }
        else s1
    | none => s1
  { s2 with initialLoad := false }

/-- What `handleSubmit` decides to do, before any network call. -/
inductive SubmitAction where
  | noCategory
  | update (id idCategory : JVal)
  | noImages
  | notUploaded
  | create (payload : FormObj) (imageUrls : List String)
deriving DecidableEq

/-- The branch structure of `handleSubmit` (lines 196-249): category
check, then the edit-mode `{id, idCategory}` payload, then the
create-mode image checks and the `{...formData, imageUrls}` create
request. -/
def submitAction (isEditMode : Bool) (fd : FormObj)
    (imageData : List ImageDescriptor) (imageFiles : List FileV) :
    SubmitAction :=
  if ¬ (getField fd "idCategory").truthy then .noCategory
  else if isEditMode then .update (getField fd "id") (getField fd "idCategory")
  else if imageData.length = 0 ∧ imageFiles.length = 0 then .noImages
  else if imageData.length > 0 then
    .create fd (imageData.map (fun img => img.url))
  else .notUploaded

/-- The error object observed by the `catch` block: an optional
`error.response.status` and an `error.message`. -/
structure ErrObj where
  status : Option Nat
  message : String
deriving DecidableEq

/-- The toast chosen by the `catch` block of `handleSubmit`. -/
def catchToast (isEditMode : Bool) (e : ErrObj) : String :=
  if e.status = some 409 then "El instrumento ya existe. Intenta con otro nombre."
  else if e.status = some 400 then "Datos inválidos. Revisa el formulario."
  else if e.status = some 500 then "Error en el servidor. Inténtalo más tarde."
  else if e.message ≠ "" then e.message
  else if isEditMode then "Error al actualizar la categoría el instrumento."
  else "Error al crear el instrumento."

/-- Result of one whole `handleSubmit` call: the successor state, whether
`handleClose` ran (form closed), and the error toast if one was shown. -/
structure StepResult where
  state : HookState
  closed : Bool
  errToast : Option String
deriving DecidableEq

/-- One full `handleSubmit` run.  `net` is the awaited result of the
service call; it is only consulted on the branches that actually issue a
request.  On success `handleClose` runs (`resetForm` then `onClose`); the
`catch` block shows a toast and touches no state. -/
def submitStep (isEditMode : Bool) (net : Except ErrObj Unit)
    (s : HookState) : StepResult :=
  match submitAction isEditMode s.formData s.imageData s.imageFiles with
  | .noCategory => ⟨s, false, some "Debes seleccionar una categoría."⟩
  | .noImages => ⟨s, false, some "Debes agregar al menos una imagen."⟩
  | .notUploaded =>
      ⟨s, false, some "Las imágenes aún no se han subido correctamente."⟩
  | _ =>
      match net with
      | .ok _ => ⟨cleanupEffect { (resetFormS s) with isOpen := false }, true, none⟩
      | .error e => ⟨s, false, some (catchToast isEditMode e)⟩

/-- User-visible outcome of `handleImageUpload` in `ImageUploader`. -/
inductive UploadResult where
  | noop
  | alertMax
  | alertType
  | done
  | alertUploadError
deriving DecidableEq

/-- The sequential `for (const file of validFiles)` loop: upload each
file in order, appending its `secureUrl` to the previews and its full
descriptor to `imageData`; the first transport error aborts the loop
(the `catch` keeps all state already committed). -/
def uploadLoop (upload : FileV → Except Unit UploadResponse) :
    List FileV → HookState → HookState × Bool
  | [], s => (s, true)
  | f :: rest, s =>
      match upload f with
      | .ok r =>
          uploadLoop upload rest
            { s with imagePreviews := s.imagePreviews ++ [r.secureUrl],
                     imageData := s.imageData ++ [respDescriptor r] }
      | .error _ => (s, false)

/-- Model of `handleImageUpload` of `ImageUploader.jsx`: no-op in edit mode,
whole-batch rejection when the batch would exceed 5 images or contains a
non-image file, otherwise append all valid files to `imageFiles` and run
the sequential upload loop. -/
def handleImageUpload (isEditMode : Bool)
    (upload : FileV → Except Unit UploadResponse) (files : List FileV)
    (s : HookState) : HookState × UploadResult :=
  if isEditMode then (s, .noop)
  else if files.length + s.imagePreviews.length > 5 then (s, .alertMax)
  else
    let validFiles := files.filter (fun f => jsStartsWith f.ftype "image/")
    if validFiles.length ≠ files.length then (s, .alertType)
    else
      let s1 := { s with imageFiles := s.imageFiles ++ validFiles }
      let (s2, ok) := uploadLoop upload validFiles s1
      (s2, if ok then .done else .alertUploadError)

/-- One event of the hook's open/close lifecycle. -/
inductive HookEvent where
  /-- A file-selection batch in the uploader, with its upload oracle. -/
  | selectFiles (files : List FileV)
      (upload : FileV → Except Unit UploadResponse)
  /-- A click on the remove button of preview `i`. -/
  | remove (i : Nat)
  /-- A `handleInputChange` call. -/
  | input (e : EditEvent)
  /-- A `handleSubmit` call with the given network result. -/
  | submit (net : Except ErrObj Unit)
  /-- Event for `handleClose`: `resetForm`, then the parent clears `isOpen`, after
  which the cleanup effect re-runs. -/
  | closeViaHandle
  /-- The parent clears `isOpen` without `handleClose`; only the cleanup
  effect runs. -/
  | closeExternal
  /-- The parent sets `isOpen`; `initialLoad` is set, and in create mode
  the open effect runs `resetForm` and clears `initialLoad`. -/
  | reopen
  /-- The edit-mode hydration effect (guarded by `isEditMode` and
  `initialLoad`). -/
  | hydrateEv (inst : InstrumentRec)

/-- Transition of the hook state under one event. -/
def stepE (isEditMode : Bool) (s : HookState) : HookEvent → HookState
  | .selectFiles files upload => (handleImageUpload isEditMode upload files s).1
  | .remove i => removeImage isEditMode i s
  | .input e =>
      { s with formData :=
          handleInputChange isEditMode e.name e.value e.ty e.checked s.formData }
  | .submit net => (submitStep isEditMode net s).state
  | .closeViaHandle => cleanupEffect { (resetFormS s) with isOpen := false }
  | .closeExternal => cleanupEffect { s with isOpen := false }
  | .reopen =>
      let s1 := { s with isOpen := true, initialLoad := true }
      if isEditMode then s1
      else { (resetFormS s1) with initialLoad := false }
  | .hydrateEv inst =>
      if isEditMode ∧ s.initialLoad then hydrate inst s else s

/-- Run a list of events from a state. -/
def runEvents (isEditMode : Bool) (events : List HookEvent)
    (s : HookState) : HookState :=
  events.foldl (stepE isEditMode) s

/-- An event only ever feeds non-`blob:` URLs into the state: upload
responses carry backend URLs and hydration carries already-uploaded ones.
-/
def eventUrlsOk : HookEvent → Prop
  | .selectFiles _ upload =>
      ∀ f r, upload f = .ok r → ¬ jsStartsWith r.secureUrl "blob:"
  | .hydrateEv inst =>
      ∀ urls, inst.imageUrls = some urls →
        ∀ u ∈ urls, ¬ jsStartsWith u "blob:"
  | _ => True

theorem jsNumber_int (value : String) (n : Int) (h : strToInt? value = some n) :
    jsNumber value = .vNum n := by
  unfold jsNumber
  by_cases hv : value = ""
  · subst hv
    rw [show strToInt? "" = none from rfl] at h
    cases h
  · rw [if_neg hv, h]

/-- In edit mode, `handleInputChange` can only touch `idCategory`. -/
theorem handleInputChange_edit_other (fd : FormObj) (name value ty : String)
    (checked : Bool) (k : String) (hk : k ≠ "idCategory") :
    getField (handleInputChange true name value ty checked fd) k
      = getField fd k := by
  unfold handleInputChange
  by_cases hn : name = "idCategory"
  · rw [if_neg (by simp [hn])]
    rw [getField_setField, if_neg (hn ▸ hk)]
  · rw [if_pos ⟨rfl, hn⟩]

theorem applyEdits_edit_other (edits : List EditEvent) (fd : FormObj)
    (k : String) (hk : k ≠ "idCategory") :
    getField (applyEdits true edits fd) k = getField fd k := by
  induction edits generalizing fd with
  | nil => rfl
  | cons e rest ih =>
    show getField (applyEdits true rest
      (handleInputChange true e.name e.value e.ty e.checked fd)) k = _
    rw [ih, handleInputChange_edit_other fd e.name e.value e.ty e.checked k hk]

/-- C5: For every field edit in create mode, `handleInputChange` stores
the coerced value in `formData`: checkbox inputs become their boolean
checked value, the `idCategory` field becomes an integer (the `Number`
coercion of the raw value), the `available` field with text value
`"true"` becomes boolean `true`, every other field's raw value passes
through unchanged, and no other field of `formData` is touched. -/
theorem C5_input_coercion (fd : FormObj) (name value ty : String)
    (checked : Bool) :
    (ty = "checkbox" →
      getField (handleInputChange false name value ty checked fd) name
        = .vBool checked) ∧
    (ty ≠ "checkbox" → name = "idCategory" →
      getField (handleInputChange false name value ty checked fd) name
        = jsNumber value ∧
      (∀ n : Int, strToInt? value = some n → jsNumber value = .vNum n)) ∧
    (ty ≠ "checkbox" → name = "available" → value = "true" →
      getField (handleInputChange false name value ty checked fd) name
        = .vBool true) ∧
    (ty ≠ "checkbox" → name ≠ "idCategory" → name ≠ "available" →
      getField (handleInputChange false name value ty checked fd) name
        = .vStr value) ∧
    (∀ k, k ≠ name →
      getField (handleInputChange false name value ty checked fd) k
        = getField fd k) := by
  unfold handleInputChange
  rw [if_neg (by simp)]
  refine ⟨?_, ?_, ?_, ?_, ?_⟩
  · intro hty
    rw [getField_setField, if_pos rfl, if_pos hty]
  · intro hty hn
    refine ⟨?_, fun n h => jsNumber_int value n h⟩
    rw [getField_setField, if_pos rfl, if_neg hty, if_pos hn]
  · intro hty hn hv
    rw [getField_setField, if_pos rfl, if_neg hty, if_neg (by simp [hn]),
      if_pos hn, hv]
    decide
  · intro hty hn ha
    rw [getField_setField, if_pos rfl, if_neg hty, if_neg hn, if_neg ha]
  · intro k hk
    rw [getField_setField, if_neg hk]

theorem C5_witness :
    getField (handleInputChange false "idCategory" "3" "select-one" false
        initialFormData) "idCategory" = .vNum 3
      ∧ getField (handleInputChange false "idCategory" "3" "select-one" false
        initialFormData) "name" = .vStr "" := by
  have h := C5_input_coercion initialFormData "idCategory" "3" "select-one" false
  refine ⟨?_, ?_⟩
  · have h1 := (h.2.1 (by decide) rfl).1
    have h2 := (h.2.1 (by decide) rfl).2 3 (by decide)
    rw [h1, h2]
  · rw [h.2.2.2.2 "name" (by decide)]
    decide

/-- C3: in edit mode, whatever field edits were attempted beforehand,
`handleSubmit` sends exactly the payload `{id, idCategory}` to the
update endpoint (the `update` action carries nothing else), with `id`
the pre-edit record id. -/
theorem C3_edit_submit_payload (fd : FormObj) (edits : List EditEvent)
    (d : List ImageDescriptor) (fs : List FileV)
    (hcat : (getField (applyEdits true edits fd) "idCategory").truthy = true) :
    submitAction true (applyEdits true edits fd) d fs
      = .update (getField fd "id")
          (getField (applyEdits true edits fd) "idCategory") := by
  unfold submitAction
  rw [if_neg (by simp [hcat]), if_pos rfl,
    applyEdits_edit_other edits fd "id" (by decide)]

theorem C3_witness :
    submitAction true
        (applyEdits true [⟨"name", "hacked", "text", false⟩,
          ⟨"idCategory", "4", "select-one", false⟩]
          [("id", .vNum 7), ("idCategory", .vNum 2)])
        [] []
      = .update (.vNum 7) (.vNum 4) := by
  have h := C3_edit_submit_payload
    [("id", .vNum 7), ("idCategory", .vNum 2)]
    [⟨"name", "hacked", "text", false⟩, ⟨"idCategory", "4", "select-one", false⟩]
    [] [] (by decide)
  rw [h]
  decide

/-- C4: in create mode with a category selected, submit with no image
metadata and no raw files stops with the "must add at least one image"
toast, and with raw files but no metadata stops with the distinct
"images not yet uploaded" toast; in both cases the state is unchanged,
the form is not closed and the outcome does not depend on any network
result (no create request is issued). -/
theorem C4_create_image_validation (s : HookState)
    (net : Except ErrObj Unit)
    (hcat : (getField s.formData "idCategory").truthy = true) :
    (s.imageData = [] → s.imageFiles = [] →
      submitStep false net s
        = ⟨s, false, some "Debes agregar al menos una imagen."⟩) ∧
    (s.imageData = [] → s.imageFiles ≠ [] →
      submitStep false net s
        = ⟨s, false, some "Las imágenes aún no se han subido correctamente."⟩) := by
  constructor
  · intro hd hf
    unfold submitStep submitAction
    rw [if_neg (by simp [hcat]), if_neg (by simp)]
    rw [if_pos (by simp [hd, hf])]
  · intro hd hf
    unfold submitStep submitAction
    rw [if_neg (by simp [hcat]), if_neg (by simp)]
    rw [if_neg (by simp [hd, hf, List.length_eq_zero]), if_neg (by simp [hd])]

theorem C4_witness :
    submitStep false (.error ⟨none, "network down"⟩)
        { initState with
            formData := setField initialFormData "idCategory" (.vNum 2) }
      = ⟨{ initState with
            formData := setField initialFormData "idCategory" (.vNum 2) },
          false, some "Debes agregar al menos una imagen."⟩ := by
  exact (C4_create_image_validation _ _ (by decide)).1 rfl rfl

/-- C8: when a create submission's awaited request fails, the catch
block maps HTTP 409 to the "already exists" toast, 400 to the
invalid-data toast, 500 to the server-error toast, and any other failure
to the raw `error.message`; in every case the state is returned
unchanged and the form is not closed. -/
theorem C8_create_error_mapping (s : HookState) (e : ErrObj)
    (hcat : (getField s.formData "idCategory").truthy = true)
    (himg : s.imageData ≠ []) :
    (e.status = some 409 → submitStep false (.error e) s
      = ⟨s, false, some "El instrumento ya existe. Intenta con otro nombre."⟩) ∧
    (e.status = some 400 → submitStep false (.error e) s
      = ⟨s, false, some "Datos inválidos. Revisa el formulario."⟩) ∧
    (e.status = some 500 → submitStep false (.error e) s
      = ⟨s, false, some "Error en el servidor. Inténtalo más tarde."⟩) ∧
    (e.status ≠ some 409 → e.status ≠ some 400 → e.status ≠ some 500 →
      e.message ≠ "" →
      submitStep false (.error e) s = ⟨s, false, some e.message⟩) := by
  have hact : submitAction false s.formData s.imageData s.imageFiles
      = .create s.formData (s.imageData.map (fun img => img.url)) := by
    unfold submitAction
    rw [if_neg (by simp [hcat]), if_neg (by simp),
      if_neg (by simp [himg]), if_pos (by simp [List.length_pos, himg])]
  have hstep : submitStep false (.error e) s
      = ⟨s, false, some (catchToast false e)⟩ := by
    unfold submitStep
    rw [hact]
  refine ⟨?_, ?_, ?_, ?_⟩
  · intro h409
    rw [hstep]
    unfold catchToast
    rw [if_pos h409]
  · intro h400
    rw [hstep]
    unfold catchToast
    rw [if_neg (by simp [h400]), if_pos h400]
  · intro h500
    rw [hstep]
    unfold catchToast
    rw [if_neg (by simp [h500]), if_neg (by simp [h500]), if_pos h500]
  · intro h1 h2 h3 hm
    rw [hstep]
    unfold catchToast
    rw [if_neg h1, if_neg h2, if_neg h3, if_pos hm]

theorem C8_witness :
    submitStep false (.error ⟨some 409, "Request failed"⟩)
        { initState with
            formData := setField initialFormData "idCategory" (.vNum 2),
            imageData := [{ url := "https://img/a.png" }] }
      = ⟨{ initState with
            formData := setField initialFormData "idCategory" (.vNum 2),
            imageData := [{ url := "https://img/a.png" }] },
          false, some "El instrumento ya existe. Intenta con otro nombre."⟩ :=
  (C8_create_error_mapping _ ⟨some 409, "Request failed"⟩ (by decide)
    (by decide)).1 rfl

/-- C9: edit-mode hydration leaves `existingImages`, `imagePreviews` and
`imageData` at their prior values when the record's `imageUrls` is
absent or empty; every falsy source field is replaced by its
empty-string or `false` default; and `formData.id` falls back to the
record's `idProduct` when `id` is absent. -/
theorem C9_hydration (inst : InstrumentRec) (s : HookState) :
    ((inst.imageUrls = none ∨ inst.imageUrls = some []) →
      (hydrate inst s).existingImages = s.existingImages ∧
      (hydrate inst s).imagePreviews = s.imagePreviews ∧
      (hydrate inst s).imageData = s.imageData) ∧
    (inst.year.truthy = false →
      getField (hydrate inst s).formData "year" = .vStr "") ∧
    (inst.stock.truthy = false →
      getField (hydrate inst s).formData "stock" = .vStr "") ∧
    (inst.available.truthy = false →
      getField (hydrate inst s).formData "available" = .vBool false) ∧
    (inst.id = .vUndef →
      getField (hydrate inst s).formData "id" = inst.idProduct) := by
  refine ⟨?_, ?_, ?_, ?_, ?_⟩
  · rintro (h | h) <;> simp [hydrate, h]
  · intro h
    simp [hydrate, getField, jsOr, h]
    cases hu : inst.imageUrls <;> simp [hu] <;> split <;> simp [getField, jsOr, h]
  · intro h
    simp [hydrate, getField, jsOr, h]
    cases hu : inst.imageUrls <;> simp [hu] <;> split <;> simp [getField, jsOr, h]
  · intro h
    simp [hydrate, getField, jsOr, h]
    cases hu : inst.imageUrls <;> simp [hu] <;> split <;> simp [getField, jsOr, h]
  · intro h
    simp [hydrate, getField, jsOr, h, JVal.truthy]
    cases hu : inst.imageUrls <;> simp [hu] <;> split <;>
      simp [getField, jsOr, h, JVal.truthy]

theorem C9_witness :
    (hydrate { id := .vNum 7, idCategory := .vNum 2, year := .vNum 0 }
        initState).imagePreviews = [] ∧
    getField (hydrate { id := .vNum 7, idCategory := .vNum 2, year := .vNum 0 }
        initState).formData "year" = .vStr "" := by
  have h := C9_hydration
    { id := .vNum 7, idCategory := .vNum 2, year := .vNum 0 } initState
  exact ⟨(h.1 (Or.inl rfl)).2.1, h.2.1 rfl⟩

theorem exists_not_imp_filter_length_ne (files : List FileV)
    (h : ∃ f ∈ files, ¬ jsStartsWith f.ftype "image/") :
    (files.filter (fun f => jsStartsWith f.ftype "image/")).length
      ≠ files.length := by
  intro hlen
  obtain ⟨f, hf, hnf⟩ := h
  have := List.filter_length_eq_length.mp hlen f hf
  exact hnf (by simpa using this)

/-- C6: a file-selection batch in create mode is rejected as a whole —
no preview, metadata or file entry is added and a user-facing alert is
raised — whenever the batch size plus the current preview count exceeds
5 or some selected file's media type does not start with `image/`. -/
theorem C6_batch_rejection (s : HookState) (files : List FileV)
    (upload : FileV → Except Unit UploadResponse)
    (h : files.length + s.imagePreviews.length > 5 ∨
         ∃ f ∈ files, ¬ jsStartsWith f.ftype "image/") :
    (handleImageUpload false upload files s).1 = s ∧
    ((handleImageUpload false upload files s).2 = .alertMax ∨
     (handleImageUpload false upload files s).2 = .alertType) := by
  unfold handleImageUpload
  rw [if_neg (by simp)]
  by_cases hc : files.length + s.imagePreviews.length > 5
  · rw [if_pos hc]
    exact ⟨rfl, Or.inl rfl⟩
  · rw [if_neg hc]
    have hex := h.resolve_left hc
    rw [if_pos (exists_not_imp_filter_length_ne files hex)]
    exact ⟨rfl, Or.inr rfl⟩

theorem C6_witness :
    (handleImageUpload false (fun _ => .error ())
        (List.replicate 6 ⟨"a.png", "image/png"⟩) initState).1 = initState ∧
    (handleImageUpload false (fun _ => .error ())
        (List.replicate 6 ⟨"a.png", "image/png"⟩)
        initState).1.imagePreviews.length = 0 := by
  have h := C6_batch_rejection initState
    (List.replicate 6 ⟨"a.png", "image/png"⟩) (fun _ => .error ())
    (Or.inl (by decide))
  exact ⟨h.1, by rw [h.1]; rfl⟩

theorem uploadLoop_all_ok (upload : FileV → Except Unit UploadResponse)
    (resp : FileV → UploadResponse) (files : List FileV) (s : HookState)
    (h : ∀ f ∈ files, upload f = .ok (resp f)) :
    uploadLoop upload files s =
      ({ s with
          imagePreviews := s.imagePreviews
            ++ files.map (fun f => (resp f).secureUrl),
          imageData := s.imageData
            ++ files.map (fun f => respDescriptor (resp f)) }, true) := by
  induction files generalizing s with
  | nil => simp [uploadLoop]
  | cons f rest ih =>
    have hf := h f (List.mem_cons_self f rest)
    simp only [uploadLoop, hf]
    rw [ih _ (fun g hg => h g (List.mem_cons_of_mem f hg))]
    simp

/-- C7: a valid batch of `n` image files whose uploads all succeed
appends exactly `n` entries to both `imagePreviews` and `imageData`, in
selection order, the previews being the backend `secureUrl`s and the
metadata entries the full returned descriptors. -/
theorem C7_batch_success (s : HookState) (files : List FileV)
    (upload : FileV → Except Unit UploadResponse)
    (resp : FileV → UploadResponse)
    (hcount : files.length + s.imagePreviews.length ≤ 5)
    (htype : ∀ f ∈ files, jsStartsWith f.ftype "image/" = true)
    (hok : ∀ f ∈ files, upload f = .ok (resp f)) :
    (handleImageUpload false upload files s).1.imagePreviews
      = s.imagePreviews ++ files.map (fun f => (resp f).secureUrl) ∧
    (handleImageUpload false upload files s).1.imageData
      = s.imageData ++ files.map (fun f => respDescriptor (resp f)) ∧
    (handleImageUpload false upload files s).2 = .done ∧
    (handleImageUpload false upload files s).1.imagePreviews.length
      = s.imagePreviews.length + files.length ∧
    (handleImageUpload false upload files s).1.imageData.length
      = s.imageData.length + files.length := by
  have hvalid : files.filter (fun f => jsStartsWith f.ftype "image/")
      = files := List.filter_eq_self.mpr (fun f hf => by simp [htype f hf])
  have hres : handleImageUpload false upload files s
      = ({ s with
            imageFiles := s.imageFiles ++ files,
            imagePreviews := s.imagePreviews
              ++ files.map (fun f => (resp f).secureUrl),
            imageData := s.imageData
              ++ files.map (fun f => respDescriptor (resp f)) }, .done) := by
    unfold handleImageUpload
    rw [if_neg (by simp), if_neg (by omega)]
    simp only [hvalid]
    rw [if_neg (by simp)]
    rw [uploadLoop_all_ok upload resp files _ hok]
    rfl
  rw [hres]
  refine ⟨rfl, rfl, rfl, ?_, ?_⟩ <;> simp [Nat.add_comm]

theorem C7_witness :
    (handleImageUpload false
        (fun f => .ok ⟨"https://cdn/" ++ f.fname, "pid-" ++ f.fname, 10, 10, "png"⟩)
        [⟨"a.png", "image/png"⟩, ⟨"b.png", "image/jpeg"⟩, ⟨"c.png", "image/png"⟩]
        initState).1.imagePreviews
      = ["https://cdn/a.png", "https://cdn/b.png", "https://cdn/c.png"] := by
  have h := C7_batch_success initState
    [⟨"a.png", "image/png"⟩, ⟨"b.png", "image/jpeg"⟩, ⟨"c.png", "image/png"⟩]
    (fun f => .ok ⟨"https://cdn/" ++ f.fname, "pid-" ++ f.fname, 10, 10, "png"⟩)
    (fun f => ⟨"https://cdn/" ++ f.fname, "pid-" ++ f.fname, 10, 10, "png"⟩)
    (by decide) (by decide) (fun f _ => rfl)
  rw [h.1]
  decide

theorem uploadLoop_stops_at_error (upload : FileV → Except Unit UploadResponse)
    (resp : FileV → UploadResponse) (pre : List FileV) (bad : FileV)
    (post : List FileV) (s : HookState)
    (hok : ∀ f ∈ pre, upload f = .ok (resp f))
    (hbad : upload bad = .error ()) :
    uploadLoop upload (pre ++ bad :: post) s =
      ({ s with
          imagePreviews := s.imagePreviews
            ++ pre.map (fun f => (resp f).secureUrl),
          imageData := s.imageData
            ++ pre.map (fun f => respDescriptor (resp f)) }, false) := by
  induction pre generalizing s with
  | nil =>
    rw [List.nil_append]
    simp only [uploadLoop, hbad]
    simp
  | cons f rest ih =>
    have hf := hok f (List.mem_cons_self f rest)
    rw [List.cons_append]
    simp only [uploadLoop, hf]
    rw [ih _ (fun g hg => hok g (List.mem_cons_of_mem f hg))]
    simp

/-- C10: in a valid batch all files are appended to `imageFiles` before
any upload begins, so when an upload fails mid-batch `imageFiles` holds
the whole batch while `imagePreviews` and `imageData` hold only the
entries of the files uploaded before the failure — breaking the
positional correspondence between `imageFiles` and `imageData`. -/
theorem C10_midbatch_failure (s : HookState) (pre : List FileV) (bad : FileV)
    (post : List FileV) (upload : FileV → Except Unit UploadResponse)
    (resp : FileV → UploadResponse)
    (hcount : (pre ++ bad :: post).length + s.imagePreviews.length ≤ 5)
    (htype : ∀ f ∈ pre ++ bad :: post, jsStartsWith f.ftype "image/" = true)
    (hok : ∀ f ∈ pre, upload f = .ok (resp f))
    (hbad : upload bad = .error ()) :
    (handleImageUpload false upload (pre ++ bad :: post) s).1.imageFiles
      = s.imageFiles ++ (pre ++ bad :: post) ∧
    (handleImageUpload false upload (pre ++ bad :: post) s).1.imagePreviews
      = s.imagePreviews ++ pre.map (fun f => (resp f).secureUrl) ∧
    (handleImageUpload false upload (pre ++ bad :: post) s).1.imageData
      = s.imageData ++ pre.map (fun f => respDescriptor (resp f)) ∧
    (handleImageUpload false upload (pre ++ bad :: post) s).2
      = .alertUploadError ∧
    (s.imageFiles.length = s.imageData.length →
      (handleImageUpload false upload (pre ++ bad :: post) s).1.imageFiles.length
        ≠ (handleImageUpload false upload (pre ++ bad :: post) s).1.imageData.length) := by
  have hvalid : (pre ++ bad :: post).filter
      (fun f => jsStartsWith f.ftype "image/") = pre ++ bad :: post :=
    List.filter_eq_self.mpr (fun f hf => by simp [htype f hf])
  have hres : handleImageUpload false upload (pre ++ bad :: post) s
      = ({ s with
            imageFiles := s.imageFiles ++ (pre ++ bad :: post),
            imagePreviews := s.imagePreviews
              ++ pre.map (fun f => (resp f).secureUrl),
            imageData := s.imageData
              ++ pre.map (fun f => respDescriptor (resp f)) },
          .alertUploadError) := by
    unfold handleImageUpload
    rw [if_neg (by simp), if_neg (by omega)]
    simp only [hvalid]
    rw [if_neg (by simp)]
    rw [uploadLoop_stops_at_error upload resp pre bad post _ hok hbad]
    rfl
  rw [hres]
  refine ⟨rfl, rfl, rfl, rfl, ?_⟩
  intro heq
  simp only [List.length_append, List.length_map, List.length_cons]
  omega

theorem C10_witness :
    (handleImageUpload false
        (fun f => if f.fname = "b.png" then .error ()
          else .ok ⟨"https://cdn/ok", "pid", 10, 10, "png"⟩)
        [⟨"a.png", "image/png"⟩, ⟨"b.png", "image/png"⟩]
        initState).1.imageFiles.length = 2 ∧
    (handleImageUpload false
        (fun f => if f.fname = "b.png" then .error ()
          else .ok ⟨"https://cdn/ok", "pid", 10, 10, "png"⟩)
        [⟨"a.png", "image/png"⟩, ⟨"b.png", "image/png"⟩]
        initState).1.imageData.length = 1 := by
  have h := C10_midbatch_failure initState [⟨"a.png", "image/png"⟩]
    ⟨"b.png", "image/png"⟩ []
    (fun f => if f.fname = "b.png" then .error ()
      else .ok ⟨"https://cdn/ok", "pid", 10, 10, "png"⟩)
    (fun _ => ⟨"https://cdn/ok", "pid", 10, 10, "png"⟩)
    (by decide) (by decide)
    (by
      intro f hf
      rw [List.mem_singleton] at hf
      subst hf
      rfl)
    rfl
  constructor
  · rw [show ([⟨"a.png", "image/png"⟩] ++ (⟨"b.png", "image/png"⟩ : FileV) :: [])
        = [(⟨"a.png", "image/png"⟩ : FileV), ⟨"b.png", "image/png"⟩] from rfl] at h
    rw [h.1]
    decide
  · rw [show ([⟨"a.png", "image/png"⟩] ++ (⟨"b.png", "image/png"⟩ : FileV) :: [])
        = [(⟨"a.png", "image/png"⟩ : FileV), ⟨"b.png", "image/png"⟩] from rfl] at h
    rw [h.2.2.1]
    decide

theorem length_filter_ne_of_nodup (l : List String) (a : String)
    (nd : l.Nodup) (ha : a ∈ l) :
    (l.filter (fun x => x ≠ a)).length = l.length - 1 := by
  induction l with
  | nil => cases ha
  | cons b rest ih =>
    rw [List.nodup_cons] at nd
    by_cases hb : b = a
    · subst hb
      have hkeep : rest.filter (fun x => x ≠ b) = rest :=
        List.filter_eq_self.mpr
          (fun x hx => decide_eq_true (fun h => nd.1 (h ▸ hx)))
      rw [List.filter_cons, if_neg (by simp), hkeep, List.length_cons]
      omega
    · have hmem : a ∈ rest := by
        rcases List.mem_cons.mp ha with h | h
        · exact absurd h.symm hb
        · exact h
      have hlen : 1 ≤ rest.length := List.length_pos.mpr
        (List.ne_nil_of_mem hmem)
      rw [List.filter_cons]
      rw [if_pos (by simp [hb])]
      rw [List.length_cons, ih nd.2 hmem, List.length_cons]
      omega

/-- C1: for an in-range index, under the documented data-model invariant
(the existing-images list is a prefix of the previews and previews are
pairwise distinct), `removeImage` shortens `imagePreviews` and
`imageData` by exactly one entry; within the existing-images prefix the
preview is removed by URL match, past it the file entry at the offset
index is removed and a `blob:` preview at the index is revoked.  The
model is a total function, so no call in range throws. -/
theorem C1_removeImage (s : HookState) (i : Nat)
    (hi : i < s.imagePreviews.length) (hd : i < s.imageData.length)
    (hpre : ∃ t, s.existingImages ++ t = s.imagePreviews)
    (hnd : s.imagePreviews.Nodup) :
    (removeImage false i s).imagePreviews.length
      = s.imagePreviews.length - 1 ∧
    (removeImage false i s).imageData.length = s.imageData.length - 1 ∧
    (i < s.existingImages.length →
      (removeImage false i s).imagePreviews
        = s.imagePreviews.filter
            (fun url => url ≠ s.existingImages.getD i "")) ∧
    (s.existingImages.length ≤ i →
      (removeImage false i s).imageFiles
        = s.imageFiles.eraseIdx (i - s.existingImages.length) ∧
      ∀ u, s.imagePreviews[i]? = some u → jsStartsWith u "blob:" = true →
        (removeImage false i s).revoked = s.revoked ++ [u]) := by
  unfold removeImage
  rw [if_neg (by simp)]
  by_cases hcase : i < s.existingImages.length
  · rw [if_pos hcase]
    have hgetd : s.existingImages.getD i ""
        = s.existingImages.get ⟨i, hcase⟩ := by
      rw [List.getD_eq_getElem?_getD, List.getElem?_eq_getElem hcase]
      rfl
    have hmem : s.existingImages.getD i "" ∈ s.imagePreviews := by
      obtain ⟨t, ht⟩ := hpre
      rw [← ht, hgetd]
      exact List.mem_append_left t (List.get_mem _ _ _)
    refine ⟨?_, ?_, ?_, ?_⟩
    · exact length_filter_ne_of_nodup s.imagePreviews _ hnd hmem
    · exact List.length_eraseIdx_of_lt hd
    · intro _
      rfl
    · intro hge
      exact absurd hcase (Nat.not_lt.mpr hge)
  · rw [if_neg hcase]
    refine ⟨?_, ?_, ?_, ?_⟩
    · exact List.length_eraseIdx_of_lt hi
    · exact List.length_eraseIdx_of_lt hd
    · intro h
      exact absurd h hcase
    · intro _
      refine ⟨rfl, ?_⟩
      intro u hu hblob
      show s.revoked ++
        (match s.imagePreviews[i]? with
          | some u => if jsStartsWith u "blob:" then [u] else []
          | none => []) = s.revoked ++ [u]
      rw [hu]
      simp [hblob]

theorem C1_witness :
    ((removeImage false 1
        { initState with
            imagePreviews := ["https://a/1.png", "https://b/2.png"],
            imageData := [{ url := "https://a/1.png" },
              { url := "https://b/2.png" }] }).imagePreviews.length = 1)
      ∧ ((removeImage false 1
        { initState with
            imagePreviews := ["https://a/1.png", "https://b/2.png"],
            imageData := [{ url := "https://a/1.png" },
              { url := "https://b/2.png" }] }).imageData.length = 1) := by
  have h := C1_removeImage
    { initState with
        imagePreviews := ["https://a/1.png", "https://b/2.png"],
        imageData := [{ url := "https://a/1.png" },
          { url := "https://b/2.png" }] } 1
    (by decide) (by decide) ⟨["https://a/1.png", "https://b/2.png"], rfl⟩
    (by decide)
  exact ⟨h.1, h.2.1⟩

/-- The C2 invariant: nothing has ever been revoked and no preview is a
`blob:` URL. -/
def RevInv (s : HookState) : Prop :=
  s.revoked = [] ∧ ∀ u ∈ s.imagePreviews, jsStartsWith u "blob:" = false

theorem revInv_resetFormS (s : HookState) (h : RevInv s) :
    RevInv (resetFormS s) := by
  obtain ⟨hr, hp⟩ := h
  constructor
  · show s.revoked
        ++ s.imagePreviews.filter (fun url => jsStartsWith url "blob:") = []
    rw [hr, List.nil_append]
    exact List.filter_eq_nil_iff.mpr (fun a ha => by simp [hp a ha])
  · intro u hu
    cases hu

theorem revInv_isOpen (s : HookState) (b : Bool) (h : RevInv s) :
    RevInv { s with isOpen := b } := h

theorem revInv_cleanupEffect (s : HookState) (h : RevInv s) :
    RevInv (cleanupEffect s) := by
  obtain ⟨hr, hp⟩ := h
  unfold cleanupEffect
  by_cases ho : s.isOpen
  · rw [if_pos ho]
    exact ⟨hr, hp⟩
  · rw [if_neg ho]
    refine ⟨?_, hp⟩
    show s.revoked
        ++ s.imagePreviews.filter (fun url => jsStartsWith url "blob:") = []
    rw [hr, List.nil_append]
    exact List.filter_eq_nil_iff.mpr (fun a ha => by simp [hp a ha])

theorem revInv_removeImage (m : Bool) (i : Nat) (s : HookState)
    (h : RevInv s) : RevInv (removeImage m i s) := by
  obtain ⟨hr, hp⟩ := h
  unfold removeImage
  by_cases hm : m = true
  · rw [if_pos hm]
    exact ⟨hr, hp⟩
  · rw [if_neg hm]
    by_cases hcase : i < s.existingImages.length
    · rw [if_pos hcase]
      exact ⟨hr, fun u hu => hp u (List.mem_of_mem_filter hu)⟩
    · rw [if_neg hcase]
      refine ⟨?_, fun u hu =>
        hp u ((List.eraseIdx_sublist s.imagePreviews i).mem hu)⟩
      show s.revoked ++
        (match s.imagePreviews[i]? with
          | some u => if jsStartsWith u "blob:" then [u] else []
          | none => []) = []
      cases hu : s.imagePreviews[i]? with
      | none => rw [hr]; rfl
      | some u =>
        rw [hr, List.nil_append]
        show (if jsStartsWith u "blob:" = true then [u] else []) = []
        rw [if_neg (by simp [hp u (List.getElem?_mem hu)])]

theorem revInv_uploadLoop (upload : FileV → Except Unit UploadResponse)
    (hu : ∀ f r, upload f = .ok r → ¬ jsStartsWith r.secureUrl "blob:")
    (files : List FileV) (s : HookState) (h : RevInv s) :
    RevInv (uploadLoop upload files s).1 := by
  induction files generalizing s with
  | nil => exact h
  | cons f rest ih =>
    show RevInv (match upload f with
      | .ok r =>
          uploadLoop upload rest
            { s with imagePreviews := s.imagePreviews ++ [r.secureUrl],
                     imageData := s.imageData ++ [respDescriptor r] }
      | .error _ => (s, false)).1
    cases hcall : upload f with
    | error e => exact h
    | ok r =>
      refine ih _ ⟨h.1, ?_⟩
      intro u hum
      rcases List.mem_append.mp hum with hl | hr
      · exact h.2 u hl
      · rw [List.mem_singleton.mp hr]
        simpa using hu f r hcall

theorem revInv_handleImageUpload (m : Bool)
    (upload : FileV → Except Unit UploadResponse)
    (hu : ∀ f r, upload f = .ok r → ¬ jsStartsWith r.secureUrl "blob:")
    (files : List FileV) (s : HookState) (h : RevInv s) :
    RevInv (handleImageUpload m upload files s).1 := by
  unfold handleImageUpload
  by_cases hm : m = true
  · rw [if_pos hm]
    exact h
  · rw [if_neg hm]
    by_cases hc : files.length + s.imagePreviews.length > 5
    · rw [if_pos hc]
      exact h
    · rw [if_neg hc]
      by_cases hv : (files.filter
          (fun f => jsStartsWith f.ftype "image/")).length ≠ files.length
      · rw [if_pos hv]
        exact h
      · rw [if_neg hv]
        exact revInv_uploadLoop upload hu
          (files.filter (fun f => jsStartsWith f.ftype "image/"))
          { s with imageFiles := s.imageFiles
              ++ files.filter (fun f => jsStartsWith f.ftype "image/") }
          ⟨h.1, h.2⟩

theorem revInv_hydrate (inst : InstrumentRec) (s : HookState)
    (hin : ∀ urls, inst.imageUrls = some urls →
      ∀ u ∈ urls, ¬ jsStartsWith u "blob:")
    (h : RevInv s) : RevInv (hydrate inst s) := by
  obtain ⟨hr, hp⟩ := h
  cases hiu : inst.imageUrls with
  | none =>
    refine ⟨?_, ?_⟩
    · simp [hydrate, hiu, hr]
    · intro u hu
      refine hp u ?_
      simpa [hydrate, hiu] using hu
  | some urls =>
    by_cases hl : urls.length > 0
    · refine ⟨?_, ?_⟩
      · simp [hydrate, hiu, hl, hr]
      · intro u hu
        have hu2 : u ∈ urls := by simpa [hydrate, hiu, hl] using hu
        simpa using hin urls hiu u hu2
    · refine ⟨?_, ?_⟩
      · simp [hydrate, hiu, hl, hr]
      · intro u hu
        refine hp u ?_
        simpa [hydrate, hiu, hl] using hu

theorem revInv_submitStep (m : Bool) (net : Except ErrObj Unit)
    (s : HookState) (h : RevInv s) : RevInv (submitStep m net s).state := by
  unfold submitStep
  cases submitAction m s.formData s.imageData s.imageFiles with
  | noCategory => exact h
  | noImages => exact h
  | notUploaded => exact h
  | update a b =>
    cases net with
    | ok u => exact revInv_cleanupEffect _ (revInv_resetFormS s h)
    | error e => exact h
  | create p urls =>
    cases net with
    | ok u => exact revInv_cleanupEffect _ (revInv_resetFormS s h)
    | error e => exact h

theorem revInv_stepE (m : Bool) (e : HookEvent) (s : HookState)
    (he : eventUrlsOk e) (h : RevInv s) : RevInv (stepE m s e) := by
  cases e with
  | selectFiles files upload => exact revInv_handleImageUpload m upload he files s h
  | remove i => exact revInv_removeImage m i s h
  | input ev => exact ⟨h.1, h.2⟩
  | submit net => exact revInv_submitStep m net s h
  | closeViaHandle =>
    exact revInv_cleanupEffect _ (revInv_isOpen _ false (revInv_resetFormS s h))
  | closeExternal => exact revInv_cleanupEffect _ (revInv_isOpen _ false h)
  | reopen =>
    show RevInv (if m = true then _ else _)
    by_cases hm : m = true
    · rw [if_pos hm]
      exact h
    · rw [if_neg hm]
      exact revInv_resetFormS _ h
  | hydrateEv inst =>
    show RevInv (if m = true ∧ s.initialLoad then hydrate inst s else s)
    by_cases hg : m = true ∧ s.initialLoad = true
    · rw [if_pos hg]
      exact revInv_hydrate inst s he h
    · rw [if_neg hg]
      exact h

theorem revInv_runEvents (m : Bool) (events : List HookEvent) (s : HookState)
    (hall : ∀ e ∈ events, eventUrlsOk e) (h : RevInv s) :
    RevInv (runEvents m events s) := by
  induction events generalizing s with
  | nil => exact h
  | cons e rest ih =>
    exact ih _ (fun x hx => hall x (List.mem_cons_of_mem e hx))
      (revInv_stepE m e s (hall e (List.mem_cons_self e rest))
        h)

/-- C2: the source never calls `URL.createObjectURL`, so no transition
of the hook ever creates a locally-generated (`blob:`) preview handle —
the set of such handles is empty and "each handle is released exactly
once, never twice, never left unreleased" holds vacuously.  The theorem
proves the stronger reachable-state fact behind it: provided every URL
fed into the state (upload responses, hydrated existing images) is not
a `blob:` URL, the revocation log stays empty over every event trace —
in particular no URL is revoked twice and no existing (already-uploaded)
image URL is ever revoked. -/
theorem C2_no_blob_handles (m : Bool) (events : List HookEvent)
    (hall : ∀ e ∈ events, eventUrlsOk e) :
    (runEvents m events initState).revoked = [] ∧
    ∀ u ∈ (runEvents m events initState).imagePreviews,
      jsStartsWith u "blob:" = false := by
  exact revInv_runEvents m events initState hall
    ⟨rfl, fun u hu => absurd hu (List.not_mem_nil u)⟩

theorem C2_witness :
    (runEvents false
      [.reopen,
       .selectFiles [⟨"a.png", "image/png"⟩]
         (fun _ => .ok ⟨"https://cdn/a.png", "pid", 10, 10, "png"⟩),
       .remove 0,
       .closeExternal] initState).revoked = [] := by
  refine (C2_no_blob_handles false _ ?_).1
  intro e he
  simp only [List.mem_cons, List.not_mem_nil, or_false] at he
  rcases he with rfl | rfl | rfl | rfl
  · trivial
  · intro f r hr
    cases hr
    decide
  · trivial
  · trivial
